import Mathlib

/-!
Shallow embedding of the `smart_elec_core` analysis engine of the
Electricity_Tracker repository: record model (`models.py`), CSV ingestion
(`io.py`), usage analyzer (`processor.py`) and billing estimator
(`estimator.py`).

Modelling conventions:
* Python `str` is modelled as `List Char` (a sequence of code points),
  so that every string operation is structurally recursive and
  kernel-evaluable.
* Python `float` is modelled as `ℚ` (exact arithmetic); the spec states its
  numeric contracts up to floating-point tolerance, and the claims under
  verification are exact statements about the algorithms.
* `datetime.datetime` is modelled as a record of calendar fields plus an
  optional UTC offset in minutes.
* Exceptions (`ValueError`) are modelled with `Except`: a raised validation
  error is `Except.error msg`.
-/

/-- Python `str`, as a sequence of code points. -/
abbrev PyStr := List Char

/-- Model of `datetime.datetime`: calendar fields plus an optional UTC
offset in minutes (`none` models a naive datetime, `some z` an aware one). -/
structure Datetime where
  year : ℕ
  month : ℕ
  day : ℕ
  hour : ℕ
  minute : ℕ
  second : ℕ
  offsetMinutes : Option ℤ
deriving DecidableEq

/-- `models.MeterReading`: a plain `@dataclass` with three fields and no
validation logic of its own (its generated constructor just stores the
fields). -/
structure MeterReading where
  device_id : PyStr
  timestamp : Datetime
  kwh : ℚ
deriving DecidableEq

/-! ### Character and number parsing helpers (models of Python primitives) -/

/-- Value of a decimal digit character, `none` on a non-digit. -/
def digitVal (c : Char) : Option ℕ :=
  if c.isDigit then some (c.toNat - 48) else none

/-- Two-digit decimal number from two characters. -/
def digits2 (a b : Char) : Option ℕ := do
  let x ← digitVal a
  let y ← digitVal b
  pure (10 * x + y)

/-- Four-digit decimal number from four characters. -/
def digits4 (a b c d : Char) : Option ℕ := do
  let x ← digits2 a b
  let y ← digits2 c d
  pure (100 * x + y)

/-- Gregorian leap-year test, as in Python's `calendar.isleap`. -/
def isLeapYear (y : ℕ) : Bool :=
  (y % 4 == 0 && y % 100 != 0) || y % 400 == 0

/-- Number of days in a month, used by `datetime` date validation. -/
def daysInMonth (y m : ℕ) : ℕ :=
  if m = 2 then (if isLeapYear y then 29 else 28)
  else if m = 4 ∨ m = 6 ∨ m = 9 ∨ m = 11 then 30
  else 31

/-- Parse the optional UTC-offset tail of an ISO-8601 time: either nothing,
or a sign followed by `HH:MM`. Returns `some none` for "no offset present",
`some (some z)` for an offset of `z` minutes, `none` for a malformed tail. -/
def parseOffset : List Char → Option (Option ℤ)
  | [] => some none
  | [s, h1, h2, ':', m1, m2] =>
    match digits2 h1 h2, digits2 m1 m2 with
    | some h, some m =>
      if h < 24 ∧ m < 60 then
        if s = '+' then some (some ((h : ℤ) * 60 + m))
        else if s = '-' then some (some (-((h : ℤ) * 60 + m)))
        else none
      else none
    | _, _ => none
  | _ => none

/-- Parse the time-of-day part of an ISO-8601 string: `HH:MM` or `HH:MM:SS`,
optionally followed by a UTC offset. Models the subset of
`datetime.fromisoformat`'s time grammar exercised by this repository
(fractional seconds are outside the modelled subset). -/
def parseTime : List Char → Option (ℕ × ℕ × ℕ × Option ℤ)
  | h1 :: h2 :: ':' :: m1 :: m2 :: rest =>
    match digits2 h1 h2, digits2 m1 m2 with
    | some h, some m =>
      if h < 24 ∧ m < 60 then
        match rest with
        | ':' :: s1 :: s2 :: rest2 =>
          match digits2 s1 s2 with
          | some s =>
            if s < 60 then (parseOffset rest2).map (fun off => (h, m, s, off))
            else none
          | none => none
        | _ => (parseOffset rest).map (fun off => (h, m, 0, off))
      else none
    | _, _ => none
  | _ => none

/-- Model of `datetime.fromisoformat`: `YYYY-MM-DD`, optionally followed by
a one-character separator and a time with optional UTC offset. Dates are
validated against the real calendar (month range, month length, leap years),
as CPython does. -/
def fromisoformat : List Char → Option Datetime
  | y1 :: y2 :: y3 :: y4 :: '-' :: m1 :: m2 :: '-' :: d1 :: d2 :: rest =>
    match digits4 y1 y2 y3 y4, digits2 m1 m2, digits2 d1 d2 with
    | some y, some mo, some d =>
      if 1 ≤ y ∧ 1 ≤ mo ∧ mo ≤ 12 ∧ 1 ≤ d ∧ d ≤ daysInMonth y mo then
        match rest with
        | [] => some ⟨y, mo, d, 0, 0, 0, none⟩
        | _sep :: timeRest =>
          (parseTime timeRest).map (fun hmso => ⟨y, mo, d, hmso.1, hmso.2.1, hmso.2.2.1, hmso.2.2.2⟩)
      else none
    | _, _, _ => none
  | _ => none

/-- Model of `row['timestamp'].replace("Z", "+00:00")`: Python `str.replace`
with the one-character pattern `"Z"` replaces every occurrence. -/
def replaceZ : List Char → List Char
  | [] => []
  | c :: rest =>
    if c = 'Z' then '+' :: '0' :: '0' :: ':' :: '0' :: '0' :: replaceZ rest
    else c :: replaceZ rest

/-- Accumulator pass of decimal-digit-string evaluation. -/
def natOfDigits : List Char → ℕ → Option ℕ
  | [], acc => some acc
  | c :: rest, acc =>
    match digitVal c with
    | some d => natOfDigits rest (10 * acc + d)
    | none => none

/-- Model of Python `float(text)` on the decimal-literal subset used by this
repository: an optional sign, then digits with an optional fractional part
(at least one digit overall). Returns the exact rational value. -/
def pyFloat (cs : List Char) : Option ℚ :=
  let sign : ℚ := match cs with | '-' :: _ => -1 | _ => 1
  let body := match cs with | '+' :: rest => rest | '-' :: rest => rest | _ => cs
  let ip := body.takeWhile (fun c => c.isDigit)
  let rest := body.dropWhile (fun c => c.isDigit)
  match rest with
  | [] =>
    if ip = [] then none
    else (natOfDigits ip 0).map (fun n => sign * (n : ℚ))
  | '.' :: frac =>
    if frac.all (fun c => c.isDigit) ∧ (ip ≠ [] ∨ frac ≠ []) then
      match natOfDigits ip 0, natOfDigits frac 0 with
      | some n, some f => some (sign * ((n : ℚ) + (f : ℚ) / (10 : ℚ) ^ frac.length))
      | _, _ => none
    else none
  | _ => none

/-! ### CSV ingestion (`io.parse_csv_string`) -/

/-- Python whitespace characters stripped by `str.strip()`. -/
def isPySpace (c : Char) : Bool :=
  c == ' ' || c == '\t' || c == '\n' || c == '\r' || c == '\x0b' || c == '\x0c'

/-- Model of `str.strip()`: drop whitespace from both ends. -/
def pyStrip (cs : List Char) : List Char :=
  ((cs.dropWhile isPySpace).reverse.dropWhile isPySpace).reverse

/-- Split on a separator character, keeping empty segments
(`"a,,b"` gives three fields, as the `csv` module does for unquoted input). -/
def splitOnCharAux (sep : Char) : List Char → PyStr → List PyStr
  | [], acc => [acc.reverse]
  | c :: rest, acc =>
    if c = sep then acc.reverse :: splitOnCharAux sep rest []
    else splitOnCharAux sep rest (c :: acc)

/-- Split a character sequence on a separator character. -/
def splitOnChar (sep : Char) (cs : List Char) : List PyStr :=
  splitOnCharAux sep cs []

/-- First occurrence index of a name in the header row. -/
def indexOfName (name : PyStr) : List PyStr → Option ℕ
  | [] => none
  | h :: rest =>
    if h = name then some 0 else (indexOfName name rest).map (· + 1)

/-- Model of `row.get(name)` on the dict built by `csv.DictReader`: the field
of `row` at the header position of `name`; `none` when the column is absent
from the header or the row is too short (DictReader fills missing cells with
`None`). -/
def getField (hdr row : List PyStr) (name : PyStr) : Option PyStr :=
  match indexOfName name hdr with
  | none => none
  | some i => row.get? i

/-- Python truthiness of an optional string: `None` and `""` are falsy. -/
def truthy : Option PyStr → Bool
  | some (_ :: _) => true
  | _ => false

/-- The `"device_id"` column name. -/
def deviceKey : PyStr := "device_id".data

/-- The `"timestamp"` column name. -/
def timestampKey : PyStr := "timestamp".data

/-- The `"kwh"` column name. -/
def kwhKey : PyStr := "kwh".data

/-- The loop body of `parse_csv_string` for one data row: the missing-field
check, the `Z` normalization and `fromisoformat` call, the `float` conversion
and the negativity check, each raising (`Except.error`) exactly where the
source raises `ValueError`. -/
def processRow (hdr row : List PyStr) : Except PyStr MeterReading :=
  if truthy (getField hdr row deviceKey) && truthy (getField hdr row timestampKey)
      && truthy (getField hdr row kwhKey) then
    match fromisoformat (replaceZ ((getField hdr row timestampKey).getD [])) with
    | none => .error ("Invalid isoformat string: ".data ++ replaceZ ((getField hdr row timestampKey).getD []))
    | some ts =>
      match pyFloat ((getField hdr row kwhKey).getD []) with
      | none => .error ("could not convert string to float: ".data ++ (getField hdr row kwhKey).getD [])
      | some k =>
        if k < 0 then .error ("kwh must be >= 0".data)
        else .ok ⟨(getField hdr row deviceKey).getD [], ts, k⟩
  else .error ("Missing field in row".data)

/-- Sequential processing of the data rows: the first bad row aborts the
whole parse (the raised error propagates; nothing is returned). -/
def parseRows (hdr : List PyStr) : List (List PyStr) → Except PyStr (List MeterReading)
  | [] => .ok []
  | row :: rest => do
    let r ← processRow hdr row
    let rs ← parseRows hdr rest
    pure (r :: rs)

/-- The lines of the stripped CSV text. -/
def csvLines (s : List Char) : List PyStr :=
  splitOnChar '\n' (pyStrip s)

/-- The header fields of a CSV text: the comma-split first line. -/
def headerFields (s : List Char) : List PyStr :=
  match csvLines s with
  | [] => []
  | h :: _ => splitOnChar ',' h

/-- The data rows of a CSV text: every line after the header, blank lines
skipped (as `csv.DictReader` does), each split on commas. -/
def dataRows (s : List Char) : List (List PyStr) :=
  match csvLines s with
  | [] => []
  | _ :: rest => (rest.filter (fun l => l ≠ [])).map (splitOnChar ',')

/-- `io.parse_csv_string`: strip the input, read the first line as the
header, process every subsequent non-blank line as a data row. An empty
(after stripping) input yields zero readings. Models the `csv` layer for the
unquoted comma-separated rows this repository uses. -/
def parse_csv_string (s : List Char) : Except PyStr (List MeterReading) :=
  match csvLines s with
  | [[]] => .ok []
  | _ => parseRows (headerFields s) (dataRows s)

/-! ### Billing estimator (`estimator.BillingEstimator`) -/

/-- `estimator.BillingEstimator`: holds the flat tariff rate. -/
structure BillingEstimator where
  rate : ℚ
deriving DecidableEq

/-- `BillingEstimator.__init__`: stores `float(tariff_rate_per_kwh)` in
`self.rate`. The source performs no validation and has no failure path, so
the constructor is a total function. -/
def BillingEstimator.init (tariff_rate_per_kwh : ℚ) : BillingEstimator :=
  ⟨tariff_rate_per_kwh⟩

/-- `Decimal(cost).quantize(Decimal('0.01'), rounding=ROUND_HALF_UP)` on an
exact value: round to a multiple of `1/100`, ties away from zero. -/
def quantizeHalfUp2 (x : ℚ) : ℚ :=
  (if 0 ≤ x then (⌊x * 100 + 1/2⌋ : ℚ) else -(⌊-(x * 100) + 1/2⌋ : ℚ)) / 100

/-- `BillingEstimator.estimate_cost`: sum the values of the usage mapping,
multiply by the rate, round to 2 decimals with `ROUND_HALF_UP`. The usage
dict is modelled as an insertion-ordered association list. -/
def BillingEstimator.estimate_cost (e : BillingEstimator)
    (usage_by_period : List (PyStr × ℚ)) : ℚ :=
  let total_kwh := (usage_by_period.map Prod.snd).sum
  let cost := total_kwh * e.rate
  quantizeHalfUp2 cost

/-! ### Usage analyzer (`processor.EnergyAnalyzer`) -/

/-- Lexicographic strict order on Python strings (code-point order,
a proper prefix precedes its extensions). -/
def pyStrLt : PyStr → PyStr → Bool
  | [], [] => false
  | [], _ :: _ => true
  | _ :: _, [] => false
  | a :: as, b :: bs => if a = b then pyStrLt as bs else decide (a < b)

/-- Days since 1970-01-01 of a civil date (proleptic Gregorian). -/
def daysFromCivil (y m d : ℤ) : ℤ :=
  let y' := if m ≤ 2 then y - 1 else y
  let era := (if 0 ≤ y' then y' else y' - 399) / 400
  let yoe := y' - era * 400
  let mp := (m + 9) % 12
  let doy := (153 * mp + 2) / 5 + d - 1
  let doe := yoe * 365 + yoe / 4 - yoe / 100 + doy
  era * 146097 + doe - 719468

/-- Comparison key of a datetime in seconds: the UTC instant for aware
datetimes, the naive field value (offset 0) for naive ones. For valid dates
this orders naive datetimes exactly as Python's field-wise comparison does;
Python raises on mixed naive/aware comparison, which is outside the
modelled scope (no claim depends on that case). -/
def dtSeconds (t : Datetime) : ℤ :=
  daysFromCivil t.year t.month t.day * 86400
    + t.hour * 3600 + t.minute * 60 + t.second
    - (t.offsetMinutes.getD 0) * 60

/-- The sort key comparison of `EnergyAnalyzer.__init__`:
`key=lambda r: (r.device_id, r.timestamp)`, tuples compared
lexicographically. -/
def readingLe (r1 r2 : MeterReading) : Bool :=
  pyStrLt r1.device_id r2.device_id
    || (decide (r1.device_id = r2.device_id)
        && decide (dtSeconds r1.timestamp ≤ dtSeconds r2.timestamp))

/-- Insert an element into a sorted list, before the first strictly larger
element (so that, inserting later elements into the sorted tail, equal keys
keep their input order: Python's `sorted` is stable). -/
def insertLe (le : α → α → Bool) (x : α) : List α → List α
  | [] => [x]
  | y :: rest => if le x y then x :: y :: rest else y :: insertLe le x rest

/-- Stable comparison sort, modelling Python's `sorted`. -/
def sortedBy (le : α → α → Bool) : List α → List α
  | [] => []
  | x :: rest => insertLe le x (sortedBy le rest)

/-- `processor.EnergyAnalyzer`: holds the readings sorted at construction. -/
structure EnergyAnalyzer where
  readings : List MeterReading
deriving DecidableEq

/-- `EnergyAnalyzer.__init__`: stores a new list, the input readings sorted
by `(device_id, timestamp)`; the caller's list is not mutated. -/
def EnergyAnalyzer.init (readings : List MeterReading) : EnergyAnalyzer :=
  ⟨sortedBy readingLe readings⟩

/-- The `defaultdict(float)` accumulation step `d[k] += v`: add to an
existing key in place, or append a fresh key at the end (dict insertion
order). -/
def addToDict (d : List (PyStr × ℚ)) (k : PyStr) (v : ℚ) : List (PyStr × ℚ) :=
  match d with
  | [] => [(k, v)]
  | (k', v') :: rest =>
    if k' = k then (k', v' + v) :: rest
    else (k', v') :: addToDict rest k v

/-- Left-pad a decimal numeral with zeros to a given width. -/
def padNum (w n : ℕ) : PyStr :=
  let s := (Nat.repr n).data
  List.replicate (w - s.length) '0' ++ s

/-- `r.timestamp.strftime("%Y-%m-%d")`: the zero-padded calendar date of the
timestamp's own fields (no timezone conversion). -/
def strftimeDay (t : Datetime) : PyStr :=
  padNum 4 t.year ++ '-' :: padNum 2 t.month ++ '-' :: padNum 2 t.day

/-- `EnergyAnalyzer.daily_usage`: fold every reading's `kwh` into the bucket
of its calendar date. -/
def EnergyAnalyzer.daily_usage (a : EnergyAnalyzer) : List (PyStr × ℚ) :=
  a.readings.foldl (fun d r => addToDict d (strftimeDay r.timestamp) r.kwh) []

/-- `EnergyAnalyzer.monthly_usage`: fold every daily bucket into the bucket
of its 7-character month prefix. -/
def EnergyAnalyzer.monthly_usage (a : EnergyAnalyzer) : List (PyStr × ℚ) :=
  a.daily_usage.foldl (fun m kv => addToDict m (kv.1.take 7) kv.2) []

/-- Python `round(x, 4)`: round to a multiple of `1/10000`, ties to even
(on the exact rational value; the repository's values are exact here). -/
def pyRound4 (x : ℚ) : ℚ :=
  let y := x * 10000
  let n := ⌊y⌋
  let f := y - (n : ℚ)
  let k := if f < 1/2 then n else if 1/2 < f then n + 1 else (if 2 ∣ n then n else n + 1)
  (k : ℚ) / 10000

/-- `sorted(daily.items())`: lexicographic order on (key, value) pairs. -/
def pairLe (p q : PyStr × ℚ) : Bool :=
  pyStrLt p.1 q.1 || (decide (p.1 = q.1) && decide (p.2 ≤ q.2))

/-- The date-sorted daily buckets `sorted(daily.items())` that
`detect_spikes` scans. -/
def EnergyAnalyzer.sortedDailyItems (a : EnergyAnalyzer) : List (PyStr × ℚ) :=
  sortedBy pairLe a.daily_usage

/-- The loop of `detect_spikes` over consecutive pairs of sorted daily
buckets: skip the pair when the previous total is `0`; otherwise emit
`(curr_date, round(prev,4), round(curr,4))` when the percentage change
strictly exceeds the threshold. -/
def spikeScan (threshold_pct : ℚ) : List (PyStr × ℚ) → List (PyStr × ℚ × ℚ)
  | p :: c :: rest =>
    (if p.2 ≠ 0 ∧ (c.2 - p.2) / p.2 * 100 > threshold_pct
      then [(c.1, pyRound4 p.2, pyRound4 c.2)] else [])
      ++ spikeScan threshold_pct (c :: rest)
  | _ => []

/-- `EnergyAnalyzer.detect_spikes`. -/
def EnergyAnalyzer.detect_spikes (a : EnergyAnalyzer) (threshold_pct : ℚ) :
    List (PyStr × ℚ × ℚ) :=
  spikeScan threshold_pct a.sortedDailyItems

/-- The per-pair decision of the `detect_spikes` loop, as an optional
emitted event. -/
def pairEvent (threshold_pct : ℚ) (p c : PyStr × ℚ) : Option (PyStr × ℚ × ℚ) :=
  if p.2 ≠ 0 ∧ (c.2 - p.2) / p.2 * 100 > threshold_pct
  then some (c.1, pyRound4 p.2, pyRound4 c.2) else none

/-- The events of all consecutive pairs of a bucket list. -/
def pairwiseEvents (threshold_pct : ℚ) (items : List (PyStr × ℚ)) :
    List (PyStr × ℚ × ℚ) :=
  (items.zip items.tail).filterMap (fun pc => pairEvent threshold_pct pc.1 pc.2)

/-! ### State-passing views of the analyzer methods

Python methods receive the object and could in principle mutate it; the
bodies of `daily_usage`, `monthly_usage` and `detect_spikes` only read
`self.readings` and never assign to any attribute, so their state-passing
embeddings return the analyzer unchanged. -/

/-- `daily_usage` as a state-passing method: result plus the object state
after the call. -/
def EnergyAnalyzer.daily_usageS (a : EnergyAnalyzer) :
    List (PyStr × ℚ) × EnergyAnalyzer :=
  (a.daily_usage, a)

/-- `monthly_usage` as a state-passing method. -/
def EnergyAnalyzer.monthly_usageS (a : EnergyAnalyzer) :
    List (PyStr × ℚ) × EnergyAnalyzer :=
  (a.monthly_usage, a)

/-- `detect_spikes` as a state-passing method. -/
def EnergyAnalyzer.detect_spikesS (a : EnergyAnalyzer) (threshold_pct : ℚ) :
    List (PyStr × ℚ × ℚ) × EnergyAnalyzer :=
  (a.detect_spikes threshold_pct, a)

/-! ### The bad-row predicate of the ingestion contract, and concrete data -/

/-- A data row is bad in the sense of the ingestion contract: a missing or
empty `device_id`, `timestamp` or `kwh` field, an unparseable `kwh`, or a
negative `kwh`. -/
def isBadRow (hdr row : List PyStr) : Bool :=
  !truthy (getField hdr row deviceKey) || !truthy (getField hdr row timestampKey)
    || !truthy (getField hdr row kwhKey)
    || (match getField hdr row kwhKey with
        | none => true
        | some kt =>
          match pyFloat kt with
          | none => true
          | some v => decide (v < 0))

/-- A reading of device `d1` in November 2025, at a given day, hour and
kwh value. -/
def sampleReading (day hour : ℕ) (k : ℚ) : MeterReading :=
  ⟨['d','1'], ⟨2025, 11, day, hour, 0, 0, some 0⟩, k⟩

/-- The analyzer of the repository's own test scenario: 2.5 kWh on
2025-11-01, 7.0 kWh on 2025-11-02. -/
def sampleAnalyzer : EnergyAnalyzer :=
  EnergyAnalyzer.init
    [sampleReading 1 0 1, sampleReading 1 1 (3/2), sampleReading 2 0 5, sampleReading 2 1 2]

/-- An analyzer whose first day totals 0 kWh and whose second day is
nonzero. -/
def zeroDayAnalyzer : EnergyAnalyzer :=
  EnergyAnalyzer.init [sampleReading 1 0 0, sampleReading 2 0 5]

/-- A CSV text whose single data row carries a negative `kwh`. -/
def badKwhCsv : List Char :=
  ("device_id,timestamp,kwh\nd1,2025-11-01T00:00:00Z,-1").data

/-- The standard header row. -/
def isoHdr : List PyStr := [deviceKey, timestampKey, kwhKey]

/-- A data row with a `Z`-suffixed timestamp. -/
def zRow : List PyStr := [['d','1'], "2025-11-01T00:00:00Z".data, ['1']]

/-- The same data row with `+00:00` in place of the trailing `Z`. -/
def offsetRow : List PyStr := [['d','1'], "2025-11-01T00:00:00+00:00".data, ['1']]

/-- A data row whose `kwh` field is `-1`. -/
def negKwhRow : List PyStr := [['d','1'], "2025-11-01T00:00:00Z".data, ['-','1']]

/-- A data row whose timestamp text is not parseable ISO-8601. -/
def badTsRow : List PyStr := [['d','1'], "bad-ts".data, ['1']]

/-- Whether an ingestion result is a raised validation error. -/
def raisesError : Except PyStr α → Bool
  | .error _ => true
  | .ok _ => false

/-! ### Helper lemmas -/

/-- Inserting into a list is a permutation of consing. -/
theorem insertLe_perm (le : α → α → Bool) (x : α) (l : List α) :
    (insertLe le x l).Perm (x :: l) := by
  induction l with
  | nil => simp [insertLe]
  | cons y rest ih =>
    simp only [insertLe]
    split
    · exact List.Perm.refl _
    · exact (ih.cons y).trans (List.Perm.swap x y rest)

/-- The stable sort returns a permutation of its input. -/
theorem sortedBy_perm (le : α → α → Bool) (l : List α) :
    (sortedBy le l).Perm l := by
  induction l with
  | nil => exact List.Perm.refl _
  | cons x rest ih =>
    exact (insertLe_perm le x (sortedBy le rest)).trans (ih.cons x)

/-- `d[k] += v` increases the sum of the dict's values by exactly `v`. -/
theorem addToDict_sumValues (d : List (PyStr × ℚ)) (k : PyStr) (v : ℚ) :
    ((addToDict d k v).map Prod.snd).sum = (d.map Prod.snd).sum + v := by
  induction d with
  | nil => simp [addToDict]
  | cons hd tl ih =>
    obtain ⟨k', v'⟩ := hd
    simp only [addToDict]
    split
    · simp only [List.map_cons, List.sum_cons]
      ring
    · simp only [List.map_cons, List.sum_cons, ih]
      ring

/-- Folding a list into a dict with insert-or-add adds the folded values
to the sum of the dict's values. -/
theorem foldl_addToDict_sumValues {β : Type} (key : β → PyStr) (val : β → ℚ)
    (l : List β) (d : List (PyStr × ℚ)) :
    ((l.foldl (fun acc x => addToDict acc (key x) (val x)) d).map Prod.snd).sum
      = (d.map Prod.snd).sum + (l.map val).sum := by
  induction l generalizing d with
  | nil => simp
  | cons x xs ih =>
    simp only [List.foldl_cons, List.map_cons, List.sum_cons, ih, addToDict_sumValues]
    ring

/-- The spike loop is the filterMap of the per-pair decision over the
consecutive pairs of the bucket list. -/
theorem spikeScan_eq_pairwiseEvents (t : ℚ) :
    ∀ items : List (PyStr × ℚ), spikeScan t items = pairwiseEvents t items
  | [] => rfl
  | [_] => rfl
  | p :: c :: rest => by
    have ih := spikeScan_eq_pairwiseEvents t (c :: rest)
    simp only [spikeScan, pairwiseEvents, List.zip_cons_cons, List.tail_cons,
      List.filterMap_cons] at ih ⊢
    rw [pairEvent]
    split
    · simp [ih]
    · simp [ih]

/-- `truthy` of a present nonempty field. -/
theorem truthy_some_append (s : List Char) (c : Char) (rest : List Char) :
    truthy (some (s ++ c :: rest)) = true := by
  cases s <;> rfl

/-- Replacing every `Z` in a string that ends in `Z`. -/
theorem replaceZ_append_z (s : List Char) :
    replaceZ (s ++ ['Z']) = replaceZ s ++ ['+','0','0',':','0','0'] := by
  induction s with
  | nil => rfl
  | cons c rest ih =>
    by_cases hc : c = 'Z'
    · subst hc; simp [replaceZ, ih]
    · simp [replaceZ, hc, ih]

/-- Replacing every `Z` in a string that ends in `+00:00` leaves the
appended offset unchanged. -/
theorem replaceZ_append_offset (s : List Char) :
    replaceZ (s ++ ['+','0','0',':','0','0']) = replaceZ s ++ ['+','0','0',':','0','0'] := by
  induction s with
  | nil => rfl
  | cons c rest ih =>
    by_cases hc : c = 'Z'
    · subst hc; simp [replaceZ, ih]
    · simp [replaceZ, hc, ih]

/-- A raised result is an `Except.error` with some message. -/
theorem exists_error_of_raisesError {α : Type} (e : Except PyStr α)
    (h : raisesError e = true) : ∃ msg, e = Except.error msg := by
  cases e with
  | error m => exact ⟨m, rfl⟩
  | ok v => simp [raisesError] at h

/-- A bad row makes the row-processing step raise. -/
theorem processRow_error_of_isBadRow (hdr row : List PyStr)
    (h : isBadRow hdr row = true) :
    raisesError (processRow hdr row) = true := by
  unfold processRow
  split
  case isFalse => rfl
  case isTrue hc =>
    rw [Bool.and_eq_true, Bool.and_eq_true] at hc
    obtain ⟨⟨hdev, hts⟩, hkwh⟩ := hc
    unfold isBadRow at h
    rw [hdev, hts, hkwh] at h
    simp only [Bool.not_true, Bool.false_or] at h
    cases hgf : getField hdr row kwhKey with
    | none => rw [hgf] at hkwh; simp [truthy] at hkwh
    | some kt =>
      rw [hgf] at h
      have h2 : (match pyFloat kt with
        | none => true
        | some v => decide (v < 0)) = true := h
      simp only [Option.getD_some]
      cases hfi : fromisoformat (replaceZ ((getField hdr row timestampKey).getD [])) with
      | none => rfl
      | some ts =>
        cases hpf : pyFloat kt with
        | none => rfl
        | some v =>
          rw [hpf] at h2
          have h3 : v < 0 := by simpa using h2
          simp [h3, raisesError]

/-- A bad row anywhere in the row list makes the whole sequential parse
raise. -/
theorem parseRows_error_of_bad_mem (hdr : List PyStr) (rows : List (List PyStr))
    (h : ∃ row ∈ rows, isBadRow hdr row = true) :
    raisesError (parseRows hdr rows) = true := by
  induction rows with
  | nil => rcases h with ⟨r, hr, _⟩; cases hr
  | cons row rest ih =>
    rcases h with ⟨r, hr, hbad⟩
    cases hpr : processRow hdr row with
    | error e =>
      simp only [parseRows]
      rw [hpr]
      rfl
    | ok v =>
      rcases List.mem_cons.mp hr with rfl | hmem
      · have hbadrow := processRow_error_of_isBadRow hdr r hbad
        rw [hpr] at hbadrow
        simp [raisesError] at hbadrow
      · have hrec := ih ⟨r, hmem, hbad⟩
        simp only [parseRows]
        rw [hpr]
        cases hpr2 : parseRows hdr rest with
        | error m => rfl
        | ok rs =>
          rw [hpr2] at hrec
          simp [raisesError] at hrec

/-- A present timestamp field that does not parse after `Z` normalization
makes the row-processing step raise. -/
theorem processRow_error_of_bad_timestamp (hdr row : List PyStr) (t : PyStr)
    (hts : getField hdr row timestampKey = some t)
    (hbad : fromisoformat (replaceZ t) = none) :
    raisesError (processRow hdr row) = true := by
  unfold processRow
  split
  case isFalse => rfl
  case isTrue hc =>
    rw [hts]
    simp only [Option.getD_some]
    rw [hbad]
    rfl

/-- A present `kwh` field that parses to a negative value makes the
row-processing step raise. -/
theorem processRow_error_of_negative_kwh (hdr row : List PyStr) (kt : PyStr) (v : ℚ)
    (hk : getField hdr row kwhKey = some kt)
    (hp : pyFloat kt = some v) (hneg : v < 0) :
    raisesError (processRow hdr row) = true := by
  unfold processRow
  split
  case isFalse => rfl
  case isTrue hc =>
    rw [hk]
    simp only [Option.getD_some]
    cases hfi : fromisoformat (replaceZ ((getField hdr row timestampKey).getD [])) with
    | none => rfl
    | some ts => simp [hp, hneg, raisesError]

/-! ### Claim theorems -/

/-- C4: for every list of meter readings, the sum of the values of
`daily_usage` equals the sum of the values of `monthly_usage` and equals
the sum of `kwh` over all readings, exactly (the embedding computes with
exact rational arithmetic). -/
theorem aggregation_round_trip (rs : List MeterReading) :
    (((EnergyAnalyzer.init rs).daily_usage).map Prod.snd).sum
        = (((EnergyAnalyzer.init rs).monthly_usage).map Prod.snd).sum ∧
    (((EnergyAnalyzer.init rs).daily_usage).map Prod.snd).sum
        = (rs.map MeterReading.kwh).sum := by
  have hdaily : (((EnergyAnalyzer.init rs).daily_usage).map Prod.snd).sum
      = ((sortedBy readingLe rs).map MeterReading.kwh).sum := by
    unfold EnergyAnalyzer.daily_usage EnergyAnalyzer.init
    simpa using foldl_addToDict_sumValues (fun r => strftimeDay r.timestamp)
      (fun r => r.kwh) (sortedBy readingLe rs) []
  have hperm : ((sortedBy readingLe rs).map MeterReading.kwh).sum
      = (rs.map MeterReading.kwh).sum :=
    ((sortedBy_perm readingLe rs).map MeterReading.kwh).sum_eq
  have hmonthly : (((EnergyAnalyzer.init rs).monthly_usage).map Prod.snd).sum
      = (((EnergyAnalyzer.init rs).daily_usage).map Prod.snd).sum := by
    unfold EnergyAnalyzer.monthly_usage
    simpa using foldl_addToDict_sumValues (fun kv : PyStr × ℚ => kv.1.take 7)
      Prod.snd ((EnergyAnalyzer.init rs).daily_usage) []
  exact ⟨hmonthly.symm, hdaily.trans hperm⟩

/-- C9: an analyzer built from an empty reading list yields empty daily and
monthly mappings and an empty spike list for every threshold; none of the
operations raises. -/
theorem empty_analyzer_empty_results :
    (EnergyAnalyzer.init []).daily_usage = [] ∧
    (EnergyAnalyzer.init []).monthly_usage = [] ∧
    ∀ t : ℚ, (EnergyAnalyzer.init []).detect_spikes t = [] :=
  ⟨rfl, rfl, fun _ => rfl⟩

/-- C10: construction builds a new sorted copy holding exactly the caller's
readings (a permutation of the input, which itself is untouched), and the
state-passing views of `daily_usage`, `monthly_usage` and `detect_spikes`
leave the analyzer unchanged, so repeated calls return equal results. -/
theorem analyzer_frame_and_determinism (rs : List MeterReading)
    (a : EnergyAnalyzer) (t : ℚ) :
    ((EnergyAnalyzer.init rs).readings).Perm rs ∧
    a.daily_usageS.2 = a ∧ a.monthly_usageS.2 = a ∧ (a.detect_spikesS t).2 = a ∧
    (a.daily_usageS.2.daily_usageS.1 = a.daily_usageS.1 ∧
      a.monthly_usageS.2.monthly_usageS.1 = a.monthly_usageS.1 ∧
      ((a.detect_spikesS t).2.detect_spikesS t).1 = (a.detect_spikesS t).1) :=
  ⟨sortedBy_perm readingLe rs, rfl, rfl, rfl, rfl, rfl, rfl⟩

unseal Rat.add Rat.mul Rat.inv Rat.sub in
/-- C2 counterexample: constructing a `BillingEstimator` with tariff rate
-1 does not fail: the returned estimator stores rate -1 and
`estimate_cost` uses it as-is (the source constructor has no validation
and no failure path). -/
theorem billing_negative_rate_counterexample :
    (BillingEstimator.init (-1)).rate = -1 ∧
    (BillingEstimator.init (-1)).estimate_cost [(['d'], 2)] = -2 :=
  ⟨rfl, by decide⟩

/-- C2 (amended): the estimator constructor performs no validation: every
tariff rate, negative ones included, is stored unchanged (never rejected,
never clamped). -/
theorem billing_init_stores_rate (r : ℚ) :
    (BillingEstimator.init r).rate = r := rfl

/-- C7 counterexample: a `MeterReading` with `kwh = -1` is constructed
successfully (the record model is a plain dataclass and rejects nothing). -/
theorem meter_reading_negative_kwh_counterexample :
    (MeterReading.mk ['d','1'] ⟨2025, 11, 1, 0, 0, 0, some 0⟩ (-1)).kwh = -1 :=
  rfl

/-- C7 (amended): the record model stores any `kwh` unchanged and its
construction never fails; a negative `kwh` is instead rejected by the
caller, CSV ingestion, whose row-processing step raises on it. -/
theorem meter_reading_stores_kwh_ingestion_rejects
    (d : PyStr) (ts : Datetime) (k : ℚ) (hdr row : List PyStr) (kt : PyStr) (v : ℚ)
    (hk : getField hdr row kwhKey = some kt)
    (hp : pyFloat kt = some v) (hneg : v < 0) :
    (MeterReading.mk d ts k).kwh = k ∧ ∃ msg, processRow hdr row = Except.error msg :=
  ⟨rfl, exists_error_of_raisesError _
    (processRow_error_of_negative_kwh hdr row kt v hk hp hneg)⟩

unseal Rat.add Rat.mul Rat.inv Rat.sub in
/-- C7 witness: the amended claim at a concrete row whose `kwh` field is
`-1`. -/
theorem meter_reading_stores_kwh_ingestion_rejects_witness :
    (MeterReading.mk ['d','1'] ⟨2025, 11, 1, 0, 0, 0, some 0⟩ (-1)).kwh = -1 ∧
    ∃ msg, processRow isoHdr negKwhRow = Except.error msg :=
  meter_reading_stores_kwh_ingestion_rejects ['d','1'] ⟨2025, 11, 1, 0, 0, 0, some 0⟩
    (-1) isoHdr negKwhRow ['-','1'] (-1) (by decide) (by decide) (by decide)

/-- C5: `detect_spikes` equals the per-pair decision applied to every
consecutive pair of the date-sorted daily buckets, and for a pair whose
previous total is strictly positive the decision emits a spike exactly when
the percentage change strictly exceeds the threshold (an exact-threshold
change emits nothing). -/
theorem detect_spikes_strict_threshold (a : EnergyAnalyzer) (t : ℚ)
    (pre rest : List (PyStr × ℚ)) (p c : PyStr × ℚ)
    (hitems : a.sortedDailyItems = pre ++ p :: c :: rest)
    (hp : 0 < p.2) :
    a.detect_spikes t = pairwiseEvents t a.sortedDailyItems ∧
    ((pairEvent t p c).isSome ↔ (c.2 - p.2) / p.2 * 100 > t) := by
  refine ⟨spikeScan_eq_pairwiseEvents t _, ?_⟩
  by_cases hgt : (c.2 - p.2) / p.2 * 100 > t
  · simp [pairEvent, ne_of_gt hp, hgt]
  · simp [pairEvent, hgt]

unseal Rat.add Rat.mul Rat.inv Rat.sub in
/-- C5 witness: the repository's own test scenario (2.5 kWh then 7.0 kWh,
threshold 50). -/
theorem detect_spikes_strict_threshold_witness :
    sampleAnalyzer.detect_spikes 50 = pairwiseEvents 50 sampleAnalyzer.sortedDailyItems ∧
    ((pairEvent 50 ("2025-11-01".data, 5/2) ("2025-11-02".data, 7)).isSome ↔
      ((7 : ℚ) - 5/2) / (5/2) * 100 > 50) :=
  detect_spikes_strict_threshold sampleAnalyzer 50 [] []
    ("2025-11-01".data, 5/2) ("2025-11-02".data, 7) (by decide) (by norm_num)

/-- C6: a consecutive pair of date-sorted daily buckets whose previous
total is `0` is skipped entirely: its per-pair decision emits nothing,
regardless of the current total and of the threshold. -/
theorem detect_spikes_skip_zero_prev (a : EnergyAnalyzer) (t : ℚ)
    (pre rest : List (PyStr × ℚ)) (p c : PyStr × ℚ)
    (hitems : a.sortedDailyItems = pre ++ p :: c :: rest)
    (hz : p.2 = 0) :
    a.detect_spikes t = pairwiseEvents t a.sortedDailyItems ∧
    pairEvent t p c = none := by
  refine ⟨spikeScan_eq_pairwiseEvents t _, ?_⟩
  simp [pairEvent, hz]

unseal Rat.add Rat.mul Rat.inv Rat.sub in
/-- C6 witness: a zero-total day followed by a 5 kWh day emits no spike. -/
theorem detect_spikes_skip_zero_prev_witness :
    zeroDayAnalyzer.detect_spikes 50 = pairwiseEvents 50 zeroDayAnalyzer.sortedDailyItems ∧
    pairEvent 50 ("2025-11-01".data, 0) ("2025-11-02".data, 5) = none :=
  detect_spikes_skip_zero_prev zeroDayAnalyzer 50 [] []
    ("2025-11-01".data, 0) ("2025-11-02".data, 5) (by decide) (by decide)

/-- C3: any CSV input with a bad data row (missing or empty `device_id`,
`timestamp` or `kwh` field, an unparseable `kwh`, or a negative `kwh`)
makes `parse_csv_string` fail with a validation error: no readings are
returned (all-or-nothing). -/
theorem parse_csv_rejects_bad_rows (s : List Char)
    (h : ∃ row ∈ dataRows s, isBadRow (headerFields s) row = true) :
    ∃ msg, parse_csv_string s = Except.error msg := by
  apply exists_error_of_raisesError
  unfold parse_csv_string
  split
  next heq =>
    exfalso
    rcases h with ⟨r, hr, _⟩
    unfold dataRows at hr
    rw [heq] at hr
    simp at hr
  next =>
    exact parseRows_error_of_bad_mem _ _ h

unseal Rat.add Rat.mul Rat.inv Rat.sub in
/-- C3 witness: a CSV whose single data row has `kwh = -1` fails to
parse. -/
theorem parse_csv_rejects_bad_rows_witness :
    ∃ msg, parse_csv_string badKwhCsv = Except.error msg :=
  parse_csv_rejects_bad_rows badKwhCsv (by decide)

/-- C8: a row whose timestamp text ends in a literal `Z` is processed to
exactly the same result as the identical row with the trailing `Z` replaced
by `+00:00`; and a row whose timestamp text does not parse as ISO-8601
after `Z` normalization fails with a validation error. -/
theorem timestamp_z_suffix_equiv (hdr row row' row₀ : List PyStr)
    (s : List Char) (t : PyStr)
    (hdev : getField hdr row deviceKey = getField hdr row' deviceKey)
    (hkwh : getField hdr row kwhKey = getField hdr row' kwhKey)
    (hts : getField hdr row timestampKey = some (s ++ ['Z']))
    (hts' : getField hdr row' timestampKey = some (s ++ ['+','0','0',':','0','0']))
    (hts0 : getField hdr row₀ timestampKey = some t)
    (hbad : fromisoformat (replaceZ t) = none) :
    processRow hdr row = processRow hdr row' ∧
    ∃ msg, processRow hdr row₀ = Except.error msg := by
  constructor
  · unfold processRow
    rw [hts, hts', hdev, hkwh]
    rw [truthy_some_append, truthy_some_append]
    simp only [Option.getD_some]
    rw [replaceZ_append_z, replaceZ_append_offset]
  · exact exists_error_of_raisesError _
      (processRow_error_of_bad_timestamp hdr row₀ t hts0 hbad)

unseal Rat.add Rat.mul Rat.inv Rat.sub in
/-- C8 witness: the sample timestamp with a trailing `Z` against its
`+00:00` form, and an unparseable timestamp row. -/
theorem timestamp_z_suffix_equiv_witness :
    processRow isoHdr zRow = processRow isoHdr offsetRow ∧
    ∃ msg, processRow isoHdr badTsRow = Except.error msg :=
  timestamp_z_suffix_equiv isoHdr zRow offsetRow badTsRow
    ("2025-11-01T00:00:00".data) ("bad-ts".data)
    (by decide) (by decide) (by decide) (by decide) (by decide) (by decide)

/-- C1: `estimate_cost` returns the sum of all bucket totals times the
tariff rate, rounded to exactly 2 decimal places with round-half-up: the
result is an integer number of cents, within a half-cent of the exact
cost, and on an exact half-cent boundary it moves away from zero (the
half-open error intervals below characterize round-half-up uniquely and
exclude round-half-to-even); in particular 9.5 kWh at rate 0.25 gives
2.38. -/
theorem estimate_cost_round_half_up (r : ℚ) (m : List (PyStr × ℚ)) :
    (∃ k : ℤ, (BillingEstimator.init r).estimate_cost m = (k : ℚ) / 100) ∧
    (0 ≤ (m.map Prod.snd).sum * r →
      -(1/200) ≤ (m.map Prod.snd).sum * r - (BillingEstimator.init r).estimate_cost m ∧
        (m.map Prod.snd).sum * r - (BillingEstimator.init r).estimate_cost m < 1/200) ∧
    ((m.map Prod.snd).sum * r < 0 →
      -(1/200) < (m.map Prod.snd).sum * r - (BillingEstimator.init r).estimate_cost m ∧
        (m.map Prod.snd).sum * r - (BillingEstimator.init r).estimate_cost m ≤ 1/200) ∧
    (BillingEstimator.init (1/4)).estimate_cost [(['d'], 19/2)] = 238/100 := by
  have hdef : (BillingEstimator.init r).estimate_cost m
      = quantizeHalfUp2 ((m.map Prod.snd).sum * r) := rfl
  set c : ℚ := (m.map Prod.snd).sum * r with hc
  refine ⟨?_, ?_, ?_, ?_⟩
  · rw [hdef]
    unfold quantizeHalfUp2
    split
    · exact ⟨⌊c * 100 + 1/2⌋, rfl⟩
    · refine ⟨-⌊-(c * 100) + 1/2⌋, ?_⟩
      push_cast
      ring
  · intro h0
    rw [hdef]
    unfold quantizeHalfUp2
    rw [if_pos h0]
    have h1 : (⌊c * 100 + 1/2⌋ : ℚ) ≤ c * 100 + 1/2 := Int.floor_le _
    have h2 : c * 100 + 1/2 < (⌊c * 100 + 1/2⌋ : ℚ) + 1 := Int.lt_floor_add_one _
    constructor <;> linarith
  · intro hneg
    rw [hdef]
    unfold quantizeHalfUp2
    rw [if_neg (not_le.mpr hneg)]
    have h1 : (⌊-(c * 100) + 1/2⌋ : ℚ) ≤ -(c * 100) + 1/2 := Int.floor_le _
    have h2 : -(c * 100) + 1/2 < (⌊-(c * 100) + 1/2⌋ : ℚ) + 1 := Int.lt_floor_add_one _
    constructor <;> linarith
  · have hsum : ((([((['d'] : PyStr), (19:ℚ)/2)]).map Prod.snd).sum * ((1:ℚ)/4)) = 19/8 := by
      simp
      norm_num
    show quantizeHalfUp2 ((([((['d'] : PyStr), (19:ℚ)/2)]).map Prod.snd).sum * ((1:ℚ)/4)) = 238/100
    rw [hsum]
    unfold quantizeHalfUp2
    rw [if_pos (by norm_num : (0:ℚ) ≤ 19/8)]
    norm_num

unseal Rat.add Rat.mul Rat.inv Rat.sub in
/-- C1 witness: the rounding characterization applied at the spec's own
example, 9.5 kWh at rate 0.25 (exact cost 2.375). -/
theorem estimate_cost_round_half_up_witness :
    (0:ℚ) ≤ ([((['d'] : PyStr), (19:ℚ)/2)].map Prod.snd).sum * (1/4) ∧
    (-(1/200) ≤ ([((['d'] : PyStr), (19:ℚ)/2)].map Prod.snd).sum * (1/4)
        - (BillingEstimator.init (1/4)).estimate_cost [(['d'], 19/2)] ∧
      ([((['d'] : PyStr), (19:ℚ)/2)].map Prod.snd).sum * (1/4)
        - (BillingEstimator.init (1/4)).estimate_cost [(['d'], 19/2)] < 1/200) :=
  ⟨by decide, (estimate_cost_round_half_up (1/4) [(['d'], 19/2)]).2.1 (by decide)⟩
